import Mathlib

/-!
# Flood monitoring station (DispFilaTasks.c)

A shallow embedding of the FreeRTOS program in `DispFilaTasks.c`: one sampler task
publishes joystick readings into a queue of length 5, and four consumer tasks
(OLED display, red/green LED, buzzer, 5x5 LED matrix) each take readings from that
queue and drive their actuator.

Every task body is embedded as the effect of ONE iteration of its `while (true)` loop
on a reading that `xQueueReceive` has just delivered.  Actuator calls become data:
the display calls become a list of `DisplayOp`, `play_buzzer` calls a list of
`BuzzerCall`, `gpio_put` an update of a pin map, and the matrix buffer `leds` a list
of pixels (25 in the program).  Reads of a C array outside its bounds have no defined result and are
embedded as `none`.
-/

namespace DispFilaTasks

/-! ## Data model -/

/-- The C struct `joystick_data_t`: two `uint16_t` fields, carried as naturals. -/
structure joystick_data_t where
  x_pos : Nat
  y_pos : Nat
  deriving DecidableEq, Repr

/-- Pin of the green LED (`#define LED_GREEN 11`). -/
def LED_GREEN : Nat := 11

/-- Pin of the red LED (`#define LED_RED 13`). -/
def LED_RED : Nat := 13

/-- Pin of the buzzer (`#define BUZZER 21`). -/
def BUZZER : Nat := 21

/-! ## C integer arithmetic used by the display task -/

/-- Value of an `int` expression after two's-complement wrap-around to 32 bits. -/
def wrapInt32 (z : Int) : Int := (z + 2147483648) % 4294967296 - 2147483648

/-- Conversion of an `int` to `uint16_t` (reduction modulo 2^16). -/
def toUint16 (z : Int) : Nat := (z % 65536).toNat

/-- The expression `(joydata.x_pos * 100) / 4095` stored in a `uint16_t`: the
`uint16_t` operand is promoted to `int`, the product and the quotient are `int`
operations (C division truncates toward zero), and the store converts to 16 bits. -/
def per (v : Nat) : Nat := toUint16 (Int.tdiv (wrapInt32 ((v : Int) * 100)) 4095)

/-! ## Display task -/

/-- A call made on the SSD1306 driver. -/
inductive DisplayOp where
  | fill (value : Bool)
  | draw_string (s : String) (x y : Nat)
  | send_data
  deriving DecidableEq, Repr

/-- The text `snprintf(buffer, sizeof(buffer), "%u%%", v)` leaves in `buffer`: the
decimal digits of `v` followed by a percent sign (a `uint16_t` has at most five
digits, so the 32-byte buffer never cuts the text). -/
def fmtPercent (v : Nat) : String := toString v ++ "%"

/-- First branch of `vDisplayTask`: `x_pos >= 2866 && y_pos < 3276`. -/
def displayWater (per_x : Nat) : List DisplayOp :=
  [ .fill false,
    .draw_string "ATENCAO" 30 8,
    .draw_string "Nivel da agua" 15 30,
    .draw_string (fmtPercent per_x) 50 42,
    .send_data ]

/-- Second branch of `vDisplayTask`: `x_pos < 2866 && y_pos >= 3276`. -/
def displayRain (per_y : Nat) : List DisplayOp :=
  [ .fill false,
    .draw_string "ATENCAO" 35 8,
    .draw_string "Volume de chuva" 4 30,
    .draw_string (fmtPercent per_y) 50 42,
    .send_data ]

/-- Third branch of `vDisplayTask`: `x_pos >= 2866 && y_pos >= 3276`. -/
def displayBoth (per_x per_y : Nat) : List DisplayOp :=
  [ .fill false,
    .draw_string "ATENCAO" 35 5,
    .draw_string "Nivel da agua" 15 20,
    .draw_string (fmtPercent per_x) 52 28,
    .draw_string "Volume de chuva" 4 40,
    .draw_string (fmtPercent per_y) 52 48,
    .send_data ]

/-- Final `else` branch of `vDisplayTask`. -/
def displayNormal (per_x per_y : Nat) : List DisplayOp :=
  [ .fill false,
    .draw_string "Nivel da agua" 15 8,
    .draw_string (fmtPercent per_x) 50 20,
    .draw_string "Volume de chuva" 4 30,
    .draw_string (fmtPercent per_y) 50 42,
    .send_data ]

/-- One iteration of `vDisplayTask` on a received reading: the driver calls it makes,
in order. -/
def vDisplayTask (joydata : joystick_data_t) : List DisplayOp :=
  let per_x := per joydata.x_pos
  let per_y := per joydata.y_pos
  if joydata.x_pos ≥ 2866 ∧ joydata.y_pos < 3276 then
    displayWater per_x
  else if joydata.x_pos < 2866 ∧ joydata.y_pos ≥ 3276 then
    displayRain per_y
  else if joydata.x_pos ≥ 2866 ∧ joydata.y_pos ≥ 3276 then
    displayBoth per_x per_y
  else
    displayNormal per_x per_y

/-- The four layouts `vDisplayTask` chooses among, in source order. -/
def displayBranches (per_x per_y : Nat) : Fin 4 → List DisplayOp
  | 0 => displayWater per_x
  | 1 => displayRain per_y
  | 2 => displayBoth per_x per_y
  | 3 => displayNormal per_x per_y

/-- The texts drawn by a sequence of driver calls, in drawing order. -/
def drawnTexts : List DisplayOp → List String
  | [] => []
  | .draw_string s _ _ :: rest => s :: drawnTexts rest
  | _ :: rest => drawnTexts rest

/-! ## LED task -/

/-- Output level of every GPIO pin. -/
abbrev GpioState := Nat → Bool

/-- The SDK call `gpio_put(pin, value)`. -/
def gpio_put (st : GpioState) (pin : Nat) (value : Bool) : GpioState :=
  fun p => if p = pin then value else st p

/-- One iteration of `vLedRGBTask` on a received reading. -/
def vLedRGBTask (st : GpioState) (joydata : joystick_data_t) : GpioState :=
  if joydata.x_pos ≥ 2866 ∨ joydata.y_pos ≥ 3276 then
    gpio_put (gpio_put st LED_RED true) LED_GREEN false
  else
    gpio_put (gpio_put st LED_RED false) LED_GREEN true

/-! ## Buzzer task -/

/-- A call `play_buzzer(pin, frequency, duration_ms)`. -/
structure BuzzerCall where
  pin : Nat
  frequency : Nat
  duration_ms : Nat
  deriving DecidableEq, Repr

/-- One iteration of `vBuzzerTask` on a received reading: the `play_buzzer` calls it
makes. -/
def vBuzzerTask (joydata : joystick_data_t) : List BuzzerCall :=
  if joydata.x_pos ≥ 2866 ∧ joydata.y_pos < 3276 then
    [⟨BUZZER, 2000, 100⟩]
  else if joydata.x_pos < 2866 ∧ joydata.y_pos ≥ 3276 then
    [⟨BUZZER, 3000, 100⟩]
  else if joydata.x_pos ≥ 2866 ∧ joydata.y_pos ≥ 3276 then
    [⟨BUZZER, 4000, 200⟩]
  else
    []

/-! ## Classifier and layouts as the specification words them -/

/-- The alert zones of the specification. -/
inductive AlertZone where
  | Normal
  | WaterAlert
  | RainAlert
  | BothAlert
  deriving DecidableEq, Repr

/-- The specification's threshold on the x axis (water level). -/
def X_THRESHOLD : Nat := 2866

/-- The specification's threshold on the y axis (rain volume). -/
def Y_THRESHOLD : Nat := 3276

/-- The specification's `classify` (section 4.2), written from its pseudo-code. -/
def classify (snapshot : joystick_data_t) : AlertZone :=
  let x_alert := decide (snapshot.x_pos ≥ X_THRESHOLD)
  let y_alert := decide (snapshot.y_pos ≥ Y_THRESHOLD)
  if x_alert && !y_alert then .WaterAlert
  else if !x_alert && y_alert then .RainAlert
  else if x_alert && y_alert then .BothAlert
  else .Normal

/-- The specification's layouts (section 4.3) as the texts to show, top to bottom:
the header, then label and value of each quantity shown. -/
def specLayout (zone : AlertZone) (pctX pctY : String) : List String :=
  match zone with
  | .WaterAlert => ["ATENCAO", "Nivel da agua", pctX]
  | .RainAlert => ["ATENCAO", "Volume de chuva", pctY]
  | .BothAlert => ["ATENCAO", "Nivel da agua", pctX, "Volume de chuva", pctY]
  | .Normal => ["Nivel da agua", pctX, "Volume de chuva", pctY]

/-- The layout branch of `vDisplayTask` that belongs to a zone. -/
def branchOfZone : AlertZone → Fin 4
  | .WaterAlert => 0
  | .RainAlert => 1
  | .BothAlert => 2
  | .Normal => 3

/-! ## LED matrix -/

/-- The C struct `pixel_t` (alias `npLED_t`): three `uint8_t` fields in the order
`G, R, B`. -/
structure npLED_t where
  G : Nat
  R : Nat
  B : Nat
  deriving DecidableEq, Repr

/-- Read of element `i` of a C array: defined only for `0 <= i < length`. -/
def cIndex {α : Type} (arr : List α) (i : Int) : Option α :=
  if 0 ≤ i then arr[i.toNat]? else none

/-- The table `const uint8_t digits[4][5][5][3]`.  The initialiser lists three
patterns; C fills the fourth, which has no initialiser, with zeros. -/
def digits : List (List (List (List Nat))) :=
  [ -- Situacao 1: sinal verde, seta pra cima
    [ [[0, 0, 0], [0, 0, 0], [0, 100, 0], [0, 0, 0], [0, 0, 0]],
      [[0, 0, 0], [0, 100, 0], [0, 0, 0], [0, 100, 0], [0, 0, 0]],
      [[0, 100, 0], [0, 0, 0], [0, 100, 0], [0, 0, 0], [0, 100, 0]],
      [[0, 0, 0], [0, 100, 0], [0, 0, 0], [0, 100, 0], [0, 0, 0]],
      [[0, 100, 0], [0, 0, 0], [0, 0, 0], [0, 0, 0], [0, 100, 0]] ],
    -- Situacao 2: sinal amarelo, sinal de exclamacao
    [ [[0, 0, 0], [0, 0, 0], [100, 0, 0], [0, 0, 0], [0, 0, 0]],
      [[0, 0, 0], [0, 0, 0], [100, 0, 0], [0, 0, 0], [0, 0, 0]],
      [[0, 0, 0], [0, 0, 0], [100, 0, 0], [0, 0, 0], [0, 0, 0]],
      [[0, 0, 0], [0, 0, 0], [0, 0, 0], [0, 0, 0], [0, 0, 0]],
      [[0, 0, 0], [0, 0, 0], [100, 0, 0], [0, 0, 0], [0, 0, 0]] ],
    -- Situacao 3: sinal vermelho, um X
    [ [[100, 0, 0], [0, 0, 0], [0, 0, 0], [0, 0, 0], [100, 0, 0]],
      [[0, 0, 0], [100, 0, 0], [0, 0, 0], [100, 0, 0], [0, 0, 0]],
      [[0, 0, 0], [0, 0, 0], [100, 0, 0], [0, 0, 0], [0, 0, 0]],
      [[0, 0, 0], [100, 0, 0], [0, 0, 0], [100, 0, 0], [0, 0, 0]],
      [[100, 0, 0], [0, 0, 0], [0, 0, 0], [0, 0, 0], [100, 0, 0]] ],
    -- fourth entry: no initialiser, all zero
    [ [[0, 0, 0], [0, 0, 0], [0, 0, 0], [0, 0, 0], [0, 0, 0]],
      [[0, 0, 0], [0, 0, 0], [0, 0, 0], [0, 0, 0], [0, 0, 0]],
      [[0, 0, 0], [0, 0, 0], [0, 0, 0], [0, 0, 0], [0, 0, 0]],
      [[0, 0, 0], [0, 0, 0], [0, 0, 0], [0, 0, 0], [0, 0, 0]],
      [[0, 0, 0], [0, 0, 0], [0, 0, 0], [0, 0, 0], [0, 0, 0]] ] ]

/-- The read `digits[digit][coluna][linha][c]`. -/
def digitsAt (digit coluna linha c : Int) : Option Nat := do
  let pattern ← cIndex digits digit
  let row ← cIndex pattern coluna
  let cell ← cIndex row linha
  cIndex cell c

/-- The function `npSetLED(uint index, r, g, b)` on the buffer `leds`: the `int`
argument is converted to `uint`, and the write is defined only inside the buffer. -/
def npSetLED (leds : List npLED_t) (index : Int) (r g b : Nat) : Option (List npLED_t) :=
  let index := (index % 4294967296).toNat
  if index < leds.length then some (leds.set index ⟨g, r, b⟩) else none

/-- The function `getIndex(int x, int y)`; `%` is C remainder. -/
def getIndex (x y : Int) : Int :=
  if Int.tmod y 2 = 0 then
    24 - (y * 5 + x)
  else
    24 - (y * 5 + (4 - x))

/-- The values `0, 1, ..., n - 1` of an `int` loop counter. -/
def intRange (n : Nat) : List Int := (List.range n).map Int.ofNat

/-- A loop `for (int i = 0; i < n; i++) body`, stopping at the first undefined step. -/
def forLoop {σ : Type} (n : Nat) (body : Int → σ → Option σ) (s : σ) : Option σ :=
  (intRange n).foldlM (fun st i => body i st) s

/-- The function `npDisplayDigit(int digit)` on the buffer `leds`.  The closing
`npWrite()` only transmits the buffer and leaves it as it is. -/
def npDisplayDigit (leds : List npLED_t) (digit : Int) : Option (List npLED_t) :=
  forLoop 5 (fun coluna leds =>
    forLoop 5 (fun linha leds => do
      let posicao := getIndex linha coluna
      let r ← digitsAt digit coluna linha 0
      let g ← digitsAt digit coluna linha 1
      let b ← digitsAt digit coluna linha 2
      npSetLED leds posicao r g b) leds) leds

/-- The iterations of the two nested loops of `npDisplayDigit`, in execution order,
each as the pair (`linha`, `coluna`). -/
def npDisplayDigitCells : List (Int × Int) :=
  (intRange 5).flatMap fun coluna => (intRange 5).map fun linha => (linha, coluna)

/-- The LED positions `npDisplayDigit` passes to `npSetLED`, in call order. -/
def npDisplayDigitPositions : List Int :=
  npDisplayDigitCells.map fun cell => getIndex cell.1 cell.2

/-- The function `npClear()`. -/
def npClear (leds : List npLED_t) : Option (List npLED_t) :=
  npDisplayDigit leds 4

/-- The buffer part of `npInit(pin)`: it ends with `npClear()`. -/
def npInit (leds : List npLED_t) : Option (List npLED_t) :=
  npClear leds

/-- One iteration of `vMatrizTask` on a received reading. -/
def vMatrizTask (leds : List npLED_t) (joydata : joystick_data_t) : Option (List npLED_t) :=
  if joydata.x_pos ≥ 2866 ∨ joydata.y_pos ≥ 3276 then
    npDisplayDigit leds 1
  else
    npClear leds

/-- The pixel a table cell `[c0, c1, c2]` becomes: `npSetLED` receives `c0` as `r`,
`c1` as `g` and `c2` as `b`. -/
def pixelOfCell (cell : List Nat) : npLED_t :=
  ⟨cell.getD 1 0, cell.getD 0 0, cell.getD 2 0⟩

/-- Cell of pattern `digit` at row `y`, column `x`, when inside the table. -/
def tableCell (digit : Int) (x y : Int) : Option npLED_t := do
  let pattern ← cIndex digits digit
  let row ← cIndex pattern y
  let cell ← cIndex row x
  pure (pixelOfCell cell)

/-- A buffer shows pattern `digit` when every LED `getIndex x y` of the 5x5 grid holds
the table cell at row `y`, column `x`. -/
def showsPattern (leds : List npLED_t) (digit : Int) : Prop :=
  leds.length = 25 ∧
  ∀ x : Fin 5, ∀ y : Fin 5,
    cIndex leds (getIndex (x.val : Int) (y.val : Int)) ≠ none ∧
    cIndex leds (getIndex (x.val : Int) (y.val : Int))
      = tableCell digit (x.val : Int) (y.val : Int)

/-- A blank buffer: 25 LEDs, each of colour (0, 0, 0). -/
def isBlank (leds : List npLED_t) : Prop :=
  leds.length = 25 ∧ ∀ p ∈ leds, p = ⟨0, 0, 0⟩

instance (leds : List npLED_t) (digit : Int) : Decidable (showsPattern leds digit) := by
  unfold showsPattern; infer_instance

instance (leds : List npLED_t) : Decidable (isBlank leds) := by
  unfold isBlank; infer_instance

/-! ### Devices for reasoning about the buffer writes -/

/-- The body of the inner loop of `npDisplayDigit` at iteration (`linha`, `coluna`). -/
def npDisplayDigitBody (digit : Int) (leds : List npLED_t) (cell : Int × Int) :
    Option (List npLED_t) := do
  let r ← digitsAt digit cell.2 cell.1 0
  let g ← digitsAt digit cell.2 cell.1 1
  let b ← digitsAt digit cell.2 cell.1 2
  npSetLED leds (getIndex cell.1 cell.2) r g b

/-- An iteration reads inside the table and writes inside a buffer of `n` LEDs. -/
def cellDefined (digit : Int) (n : Nat) (cell : Int × Int) : Prop :=
  (digitsAt digit cell.2 cell.1 0).isSome ∧
  (digitsAt digit cell.2 cell.1 1).isSome ∧
  (digitsAt digit cell.2 cell.1 2).isSome ∧
  (getIndex cell.1 cell.2 % 4294967296).toNat < n

instance (digit : Int) (n : Nat) (cell : Int × Int) : Decidable (cellDefined digit n cell) := by
  unfold cellDefined; infer_instance

/-- The buffer write of an iteration: position and pixel. -/
def writeOf (digit : Int) (cell : Int × Int) : Nat × npLED_t :=
  ((getIndex cell.1 cell.2 % 4294967296).toNat,
   ⟨(digitsAt digit cell.2 cell.1 1).getD 0,
    (digitsAt digit cell.2 cell.1 0).getD 0,
    (digitsAt digit cell.2 cell.1 2).getD 0⟩)

/-- A buffer after a sequence of writes. -/
def setAll (ws : List (Nat × npLED_t)) (leds : List npLED_t) : List npLED_t :=
  ws.foldl (fun l w => l.set w.1 w.2) leds

/-- The value the last write to position `i` leaves there, `acc` when there is none. -/
def lastWriteFrom (ws : List (Nat × npLED_t)) (i : Nat) (acc : Option npLED_t) :
    Option npLED_t :=
  ws.foldl (fun acc w => if w.1 = i then some w.2 else acc) acc

/-! ## Alert channel

The FreeRTOS queue functions are library code outside the program text.  They are
modelled here as the specification describes the channel: a bounded FIFO whose
zero-wait send drops the item when the queue is full and whose receive hands the
oldest item to the caller.  Queue operations are atomic, so an execution of the five
tasks is an interleaving of sampler iterations and serviced receives. -/

/-- Modelled from the spec: the FreeRTOS queue object (the library is not part of the
program text); a bounded FIFO holding at most `uxLength` items, oldest first. -/
structure Queue (α : Type) where
  uxLength : Nat
  items : List α

/-- Modelled from the spec: `xQueueCreate(uxQueueLength, uxItemSize)` of the FreeRTOS
library, giving an empty queue of the requested capacity. -/
def xQueueCreate {α : Type} (uxQueueLength : Nat) : Queue α :=
  ⟨uxQueueLength, []⟩

/-- Modelled from the spec: `xQueueSend(queue, &item, 0)` of the FreeRTOS library with
zero ticks to wait: the item is appended when there is room, and otherwise the call
returns at once with the queue untouched.  The boolean is `pdTRUE`/`errQUEUE_FULL`. -/
def xQueueSend {α : Type} (q : Queue α) (item : α) : Bool × Queue α :=
  if q.items.length < q.uxLength then
    (true, { q with items := q.items ++ [item] })
  else
    (false, q)

/-- Modelled from the spec: `xQueueReceive(queue, &item, portMAX_DELAY)` of the
FreeRTOS library: the oldest item is removed and handed to the caller; `none` stands
for a caller that stays blocked on the empty queue. -/
def xQueueReceive {α : Type} (q : Queue α) : Option (α × Queue α) :=
  match q.items with
  | [] => none
  | item :: rest => some (item, { q with items := rest })

/-- The queue `main` creates: `xQueueCreate(5, sizeof(joystick_data_t))`. -/
def xQueueJoystickData : Queue joystick_data_t := xQueueCreate 5

/-- One iteration of `vJoystickTask`: ADC input 0 is read into `y_pos`, ADC input 1
into `x_pos`, and the reading is sent with zero wait; the result of `xQueueSend` is
not looked at. -/
def vJoystickTask (q : Queue joystick_data_t) (adc0 adc1 : Nat) : Queue joystick_data_t :=
  let joydata : joystick_data_t := { x_pos := adc1, y_pos := adc0 }
  (xQueueSend q joydata).2

/-- The four consumer tasks `main` creates. -/
inductive Consumer where
  | vDisplayTask
  | vLedRGBTask
  | vBuzzerTask
  | vMatrizTask
  deriving DecidableEq, Repr

/-- A step of the channel: one sampler iteration with its two ADC readings, or one
consumer calling `xQueueReceive`. -/
inductive Event where
  | sample (adc0 adc1 : Nat)
  | receive (c : Consumer)
  deriving DecidableEq, Repr

/-- Effect of one step on the channel. -/
def chanStep (q : Queue joystick_data_t) : Event → Queue joystick_data_t
  | .sample adc0 adc1 => vJoystickTask q adc0 adc1
  | .receive _ =>
    match xQueueReceive q with
    | none => q
    | some (_, q') => q'

/-- Channel after a sequence of steps. -/
def chanRun (q : Queue joystick_data_t) (tr : List Event) : Queue joystick_data_t :=
  tr.foldl chanStep q

/-- States of the channel reachable from the queue created in `main`. -/
inductive Reachable : Queue joystick_data_t → Prop where
  | init : Reachable xQueueJoystickData
  | step (q : Queue joystick_data_t) (e : Event) : Reachable q → Reachable (chanStep q e)

/-- The channel with bookkeeping added for reasoning about deliveries: every reading
carries the number of the sampler iteration that produced it, and every serviced
receive is recorded with the consumer that made it. -/
structure Traced where
  queue : Queue (Nat × joystick_data_t)
  samples : Nat
  received : List (Consumer × Nat)

/-- Start of the program: the queue of `main`, no sample taken, nothing received. -/
def Traced.init : Traced := ⟨xQueueCreate 5, 0, []⟩

/-- Effect of one step on the channel with bookkeeping. -/
def tracedStep (s : Traced) : Event → Traced
  | .sample adc0 adc1 =>
    { queue := (xQueueSend s.queue (s.samples, { x_pos := adc1, y_pos := adc0 })).2
      samples := s.samples + 1
      received := s.received }
  | .receive c =>
    match xQueueReceive s.queue with
    | none => s
    | some ((n, _), q') =>
      { queue := q', samples := s.samples, received := s.received ++ [(c, n)] }

/-- Channel with bookkeeping after a sequence of steps. -/
def tracedRun (s : Traced) (tr : List Event) : Traced :=
  tr.foldl tracedStep s

/-- The consumers whose receives occur in a sequence of steps, in order. -/
def receivers : List Event → List Consumer
  | [] => []
  | .receive c :: rest => c :: receivers rest
  | .sample _ _ :: rest => receivers rest

/-- The consumers that have received sample number `n`, one entry per delivery. -/
def receiversOf (s : Traced) (n : Nat) : List Consumer :=
  (s.received.filter fun r => r.2 = n).map Prod.fst

/-- The sample numbers the channel has accepted and not lost: those already received,
in order of delivery, followed by those still buffered, oldest first. -/
def tagsOf (s : Traced) : List Nat :=
  s.received.map Prod.snd ++ s.queue.items.map Prod.fst

/-- The invariant of the channel with bookkeeping: accepted sample numbers are
strictly increasing and below the number of the next sample, and the queue keeps the
capacity 5. -/
def TracedInv (s : Traced) : Prop :=
  (tagsOf s).Pairwise (· < ·) ∧ (∀ t ∈ tagsOf s, t < s.samples) ∧
  s.queue.uxLength = 5 ∧ s.queue.items.length ≤ 5

/-! ## Percentages -/

theorem wrapInt32_of_range (z : Int) (h0 : -2147483648 ≤ z) (h1 : z < 2147483648) :
    wrapInt32 z = z := by
  unfold wrapInt32
  omega

theorem tdiv_percent (v : Nat) :
    Int.tdiv ((v : Int) * 100) 4095 = ((v * 100 / 4095 : Nat) : Int) := by
  rw [Int.tdiv_eq_ediv (by positivity) (by decide)]
  push_cast
  rfl

theorem per_eq (v : Nat) (hv : v ≤ 65535) : per v = v * 100 / 4095 := by
  unfold per toUint16
  rw [wrapInt32_of_range _ (by omega) (by omega), tdiv_percent]
  have h2 : v * 100 / 4095 < 65536 := by omega
  omega

/-- C6: for a reading `v` in [0, 4095] the percentage the display task computes is
the floor of `100 * v / 4095`; the `int` product does not overflow, the quotient fits
the 16-bit variable, the result is at most 100, and the readings 0, 4095, 2047 and
3000 give 0, 100, 49 and 73. -/
theorem per_is_floor_percentage (v : Nat) (hv : v ≤ 4095) :
    per v = v * 100 / 4095 ∧
    per v = ⌊(100 * (v : ℚ)) / 4095⌋₊ ∧
    wrapInt32 ((v : Int) * 100) = (v : Int) * 100 ∧
    (0 ≤ Int.tdiv ((v : Int) * 100) 4095 ∧ Int.tdiv ((v : Int) * 100) 4095 < 65536) ∧
    per v ≤ 100 ∧
    per 0 = 0 ∧ per 4095 = 100 ∧ per 2047 = 49 ∧ per 3000 = 73 := by
  have h := per_eq v (by omega)
  refine ⟨h, ?_, wrapInt32_of_range _ (by omega) (by omega), ?_, ?_,
    by decide, by decide, by decide, by decide⟩
  · rw [h]
    have e : (100 * (v : ℚ)) / 4095 = ((v * 100 : ℕ) : ℚ) / ((4095 : ℕ) : ℚ) := by
      push_cast
      ring
    rw [e, Nat.floor_div_eq_div]
  · rw [tdiv_percent]
    omega
  · rw [h]
    omega

theorem per_is_floor_percentage_witness :
    3000 ≤ 4095 ∧ per 3000 = 3000 * 100 / 4095 ∧ per 3000 ≤ 100 :=
  ⟨by decide, (per_is_floor_percentage 3000 (by decide)).1,
    (per_is_floor_percentage 3000 (by decide)).2.2.2.2.1⟩

/-! ## Display task -/

theorem classify_cases (x y : Nat) :
    (classify ⟨x, y⟩ = .WaterAlert ↔ (x ≥ 2866 ∧ y < 3276)) ∧
    (classify ⟨x, y⟩ = .RainAlert ↔ (x < 2866 ∧ y ≥ 3276)) ∧
    (classify ⟨x, y⟩ = .BothAlert ↔ (x ≥ 2866 ∧ y ≥ 3276)) ∧
    (classify ⟨x, y⟩ = .Normal ↔ (x < 2866 ∧ y < 3276)) := by
  unfold classify X_THRESHOLD Y_THRESHOLD
  by_cases hx : x ≥ 2866 <;> by_cases hy : y ≥ 3276 <;> simp [hx, hy] <;> omega

theorem displayBranches_injective (px py : Nat) :
    Function.Injective (displayBranches px py) := by
  intro i j h
  fin_cases i <;> fin_cases j <;>
    first
    | rfl
    | (exfalso
       simp [displayBranches, displayWater, displayRain, displayBoth, displayNormal] at h)

/-- C1: for a reading with both axes in [0, 4095] the display task draws exactly one
of its four layouts, the one of the zone `classify` gives with thresholds 2866 and
3276: header, water label and water percentage for WaterAlert; header, rain label and
rain percentage for RainAlert; header and both pairs for BothAlert; both pairs without
header, water first, for Normal.  The four readings around the thresholds fall in
Normal, WaterAlert, RainAlert and BothAlert. -/
theorem vDisplayTask_draws_zone_layout (x y : Nat) (hx : x ≤ 4095) (hy : y ≤ 4095) :
    (∃! i : Fin 4, vDisplayTask ⟨x, y⟩ = displayBranches (per x) (per y) i) ∧
    vDisplayTask ⟨x, y⟩ = displayBranches (per x) (per y) (branchOfZone (classify ⟨x, y⟩)) ∧
    drawnTexts (vDisplayTask ⟨x, y⟩)
      = specLayout (classify ⟨x, y⟩) (fmtPercent (x * 100 / 4095))
          (fmtPercent (y * 100 / 4095)) ∧
    (classify ⟨x, y⟩ = .WaterAlert ↔ (x ≥ 2866 ∧ ¬ y ≥ 3276)) ∧
    (classify ⟨x, y⟩ = .RainAlert ↔ (¬ x ≥ 2866 ∧ y ≥ 3276)) ∧
    (classify ⟨x, y⟩ = .BothAlert ↔ (x ≥ 2866 ∧ y ≥ 3276)) ∧
    (classify ⟨x, y⟩ = .Normal ↔ (¬ x ≥ 2866 ∧ ¬ y ≥ 3276)) ∧
    classify ⟨2865, 3275⟩ = .Normal ∧ vDisplayTask ⟨2865, 3275⟩ = displayNormal 69 79 ∧
    classify ⟨2866, 3275⟩ = .WaterAlert ∧ vDisplayTask ⟨2866, 3275⟩ = displayWater 69 ∧
    classify ⟨2865, 3276⟩ = .RainAlert ∧ vDisplayTask ⟨2865, 3276⟩ = displayRain 80 ∧
    classify ⟨2866, 3276⟩ = .BothAlert ∧ vDisplayTask ⟨2866, 3276⟩ = displayBoth 69 80 := by
  have hb : vDisplayTask ⟨x, y⟩
      = displayBranches (per x) (per y) (branchOfZone (classify ⟨x, y⟩)) := by
    unfold vDisplayTask classify X_THRESHOLD Y_THRESHOLD
    rcases Nat.lt_or_ge x 2866 with h1 | h1 <;> rcases Nat.lt_or_ge y 3276 with h2 | h2 <;>
      simp [h1, h2, Nat.not_le.mpr, Nat.not_lt.mpr, branchOfZone, displayBranches]
  have hc := classify_cases x y
  refine ⟨⟨_, hb, fun j hj => ?_⟩, hb, ?_, ?_, ?_, hc.2.2.1, ?_,
    by decide, by decide, by decide, by decide, by decide, by decide, by decide, by decide⟩
  · exact displayBranches_injective _ _ (hj.symm.trans hb)
  · rw [hb, ← per_eq x (by omega), ← per_eq y (by omega)]
    cases classify ⟨x, y⟩ <;> rfl
  · rw [hc.1]; omega
  · rw [hc.2.1]; omega
  · rw [hc.2.2.2]; omega

theorem vDisplayTask_draws_zone_layout_witness :
    3000 ≤ 4095 ∧ 1000 ≤ 4095 ∧
    drawnTexts (vDisplayTask ⟨3000, 1000⟩)
      = specLayout (classify ⟨3000, 1000⟩) (fmtPercent (3000 * 100 / 4095))
          (fmtPercent (1000 * 100 / 4095)) :=
  ⟨by decide, by decide,
    (vDisplayTask_draws_zone_layout 3000 1000 (by decide) (by decide)).2.2.1⟩

/-! ## Buzzer task -/

/-- C2: for a reading with both axes in [0, 4095] the buzzer task calls `play_buzzer`
exactly once with (2000 Hz, 100 ms) when only x is at or above 2866, exactly once with
(3000 Hz, 100 ms) when only y is at or above 3276, exactly once with (4000 Hz, 200 ms)
when both are, and makes no call when neither is. -/
theorem vBuzzerTask_calls (x y : Nat) (_hx : x ≤ 4095) (_hy : y ≤ 4095) :
    (x ≥ 2866 ∧ y < 3276 → vBuzzerTask ⟨x, y⟩ = [⟨BUZZER, 2000, 100⟩]) ∧
    (x < 2866 ∧ y ≥ 3276 → vBuzzerTask ⟨x, y⟩ = [⟨BUZZER, 3000, 100⟩]) ∧
    (x ≥ 2866 ∧ y ≥ 3276 → vBuzzerTask ⟨x, y⟩ = [⟨BUZZER, 4000, 200⟩]) ∧
    (x < 2866 ∧ y < 3276 → vBuzzerTask ⟨x, y⟩ = []) := by
  unfold vBuzzerTask
  rcases Nat.lt_or_ge x 2866 with h1 | h1 <;> rcases Nat.lt_or_ge y 3276 with h2 | h2 <;>
    simp [h1, h2, Nat.not_le.mpr, Nat.not_lt.mpr]

theorem vBuzzerTask_calls_witness :
    1000 ≤ 4095 ∧ 3500 ≤ 4095 ∧ vBuzzerTask ⟨1000, 3500⟩ = [⟨BUZZER, 3000, 100⟩] :=
  ⟨by decide, by decide,
    (vBuzzerTask_calls 1000 3500 (by decide) (by decide)).2.1 ⟨by decide, by decide⟩⟩

/-! ## LED task -/

/-- C3: for a reading with both axes in [0, 4095], after one iteration of the LED task
the red LED is on and the green LED off when x is at or above 2866 or y at or above
3276, and the green LED is on and the red LED off otherwise; in both cases exactly one
of the two LEDs is on, whatever the pins held before. -/
theorem vLedRGBTask_indicator (st : GpioState) (x y : Nat) (_hx : x ≤ 4095)
    (_hy : y ≤ 4095) :
    ((x ≥ 2866 ∨ y ≥ 3276) →
      vLedRGBTask st ⟨x, y⟩ LED_RED = true ∧ vLedRGBTask st ⟨x, y⟩ LED_GREEN = false) ∧
    (¬ (x ≥ 2866 ∨ y ≥ 3276) →
      vLedRGBTask st ⟨x, y⟩ LED_GREEN = true ∧ vLedRGBTask st ⟨x, y⟩ LED_RED = false) ∧
    (vLedRGBTask st ⟨x, y⟩ LED_RED ≠ vLedRGBTask st ⟨x, y⟩ LED_GREEN) := by
  unfold vLedRGBTask
  by_cases h : x ≥ 2866 ∨ y ≥ 3276 <;>
    simp [h, gpio_put, LED_RED, LED_GREEN]

theorem vLedRGBTask_indicator_witness :
    3000 ≤ 4095 ∧ 1000 ≤ 4095 ∧
    vLedRGBTask (fun _ => false) ⟨3000, 1000⟩ LED_RED = true ∧
    vLedRGBTask (fun _ => false) ⟨3000, 1000⟩ LED_GREEN = false :=
  ⟨by decide, by decide,
    (vLedRGBTask_indicator (fun _ => false) 3000 1000 (by decide) (by decide)).1
      (Or.inl (by decide))⟩

/-! ## LED matrix -/

theorem foldlM_flatMap_option {α β σ : Type} (l : List α) (g : α → List β)
    (f : σ → β → Option σ) (s : σ) :
    (l.flatMap g).foldlM f s = l.foldlM (fun st a => (g a).foldlM f st) s := by
  induction l generalizing s with
  | nil => rfl
  | cons a l ih =>
    rw [List.flatMap_cons, List.foldlM_append, List.foldlM_cons]
    congr 1
    funext st
    exact ih st

theorem npDisplayDigit_eq_foldlM (leds : List npLED_t) (digit : Int) :
    npDisplayDigit leds digit = npDisplayDigitCells.foldlM (npDisplayDigitBody digit) leds := by
  unfold npDisplayDigit npDisplayDigitCells forLoop
  rw [foldlM_flatMap_option]
  refine congrArg
    (fun (f : List npLED_t → Int → Option (List npLED_t)) => List.foldlM f leds (intRange 5)) ?_
  funext st coluna
  rw [List.foldlM_map]
  rfl

theorem foldlM_body_eq_setAll (digit : Int) (cs : List (Int × Int)) (leds : List npLED_t)
    (hok : ∀ c ∈ cs, cellDefined digit leds.length c) :
    cs.foldlM (npDisplayDigitBody digit) leds = some (setAll (cs.map (writeOf digit)) leds) := by
  induction cs generalizing leds with
  | nil => rfl
  | cons c cs ih =>
    obtain ⟨h0, h1, h2, h3⟩ := hok c (List.mem_cons_self _ _)
    obtain ⟨r, hr⟩ := Option.isSome_iff_exists.mp h0
    obtain ⟨g, hg⟩ := Option.isSome_iff_exists.mp h1
    obtain ⟨b, hb⟩ := Option.isSome_iff_exists.mp h2
    have hstep : npDisplayDigitBody digit leds c
        = some (leds.set (writeOf digit c).1 (writeOf digit c).2) := by
      simp [npDisplayDigitBody, writeOf, npSetLED, hr, hg, hb, h3]
    rw [List.foldlM_cons, hstep]
    have := ih (leds.set (writeOf digit c).1 (writeOf digit c).2) (by
      intro c' hc'
      have := hok c' (List.mem_cons_of_mem _ hc')
      simpa [cellDefined] using this)
    simpa [setAll] using this

theorem setAll_length (ws : List (Nat × npLED_t)) (leds : List npLED_t) :
    (setAll ws leds).length = leds.length := by
  induction ws generalizing leds with
  | nil => rfl
  | cons w ws ih => simp [setAll] at ih ⊢; rw [ih]; simp

theorem setAll_getElem? (ws : List (Nat × npLED_t)) (leds : List npLED_t) (i : Nat)
    (hi : i < leds.length) :
    (setAll ws leds)[i]? = lastWriteFrom ws i leds[i]? := by
  induction ws generalizing leds with
  | nil => rfl
  | cons w ws ih =>
    have h := ih (leds.set w.1 w.2) (by simpa using hi)
    simp only [setAll, lastWriteFrom, List.foldl_cons] at h ⊢
    rw [h, List.getElem?_set]
    by_cases hw : w.1 = i
    · subst hw
      simp [hi]
    · simp [hw, List.getElem?_eq_getElem hi]

theorem lastWriteFrom_of_none (ws : List (Nat × npLED_t)) (i : Nat) (v : npLED_t)
    (acc : Option npLED_t) (h : lastWriteFrom ws i none = some v) :
    lastWriteFrom ws i acc = some v := by
  induction ws generalizing acc with
  | nil => simp [lastWriteFrom] at h
  | cons w ws ih =>
    simp only [lastWriteFrom, List.foldl_cons] at h ⊢
    by_cases hw : w.1 = i
    · simpa [hw] using h
    · simp only [hw, if_false] at h ⊢
      exact ih acc h

theorem getIndex_range (x y : Int) (hx0 : 0 ≤ x) (hx4 : x ≤ 4) (hy0 : 0 ≤ y) (hy4 : y ≤ 4) :
    0 ≤ getIndex x y ∧ getIndex x y ≤ 24 := by
  unfold getIndex
  rw [Int.tmod_eq_emod hy0 (by decide)]
  split_ifs <;> omega

theorem getIndex_injective (x y x' y' : Int) (hx0 : 0 ≤ x) (hx4 : x ≤ 4) (hy0 : 0 ≤ y)
    (_hy4 : y ≤ 4) (hx0' : 0 ≤ x') (hx4' : x' ≤ 4) (hy0' : 0 ≤ y') (_hy4' : y' ≤ 4)
    (h : getIndex x y = getIndex x' y') : x = x' ∧ y = y' := by
  unfold getIndex at h
  rw [Int.tmod_eq_emod hy0 (by decide), Int.tmod_eq_emod hy0' (by decide)] at h
  split_ifs at h <;> omega

theorem cells_defined :
    ∀ d ∈ ([0, 1, 2, 3] : List Int), ∀ c ∈ npDisplayDigitCells, cellDefined d 25 c := by
  decide

theorem lastWrite_is_tableCell :
    ∀ d ∈ ([0, 1, 2, 3] : List Int), ∀ x y : Fin 5,
      0 ≤ getIndex (x.val : Int) (y.val : Int) ∧
      (getIndex (x.val : Int) (y.val : Int)).toNat < 25 ∧
      (tableCell d (x.val : Int) (y.val : Int)).isSome ∧
      lastWriteFrom (npDisplayDigitCells.map (writeOf d))
          (getIndex (x.val : Int) (y.val : Int)).toNat none
        = tableCell d (x.val : Int) (y.val : Int) := by
  decide

theorem npDisplayDigit_eq_setAll (leds : List npLED_t) (hlen : leds.length = 25) (digit : Int)
    (hd : digit ∈ ([0, 1, 2, 3] : List Int)) :
    npDisplayDigit leds digit = some (setAll (npDisplayDigitCells.map (writeOf digit)) leds) := by
  rw [npDisplayDigit_eq_foldlM]
  apply foldlM_body_eq_setAll
  rw [hlen]
  exact cells_defined digit hd

theorem setAll_showsPattern (leds : List npLED_t) (hlen : leds.length = 25) (digit : Int)
    (hd : digit ∈ ([0, 1, 2, 3] : List Int)) :
    showsPattern (setAll (npDisplayDigitCells.map (writeOf digit)) leds) digit := by
  refine ⟨by rw [setAll_length, hlen], fun x y => ?_⟩
  obtain ⟨h0, h25, hsome, hlast⟩ := lastWrite_is_tableCell digit hd x y
  obtain ⟨v, hv⟩ := Option.isSome_iff_exists.mp hsome
  have hget : cIndex (setAll (npDisplayDigitCells.map (writeOf digit)) leds)
      (getIndex (x.val : Int) (y.val : Int)) = some v := by
    unfold cIndex
    rw [if_pos h0, setAll_getElem? _ _ _ (by rw [hlen]; exact h25)]
    exact lastWriteFrom_of_none _ _ _ _ (hlast.trans hv)
  rw [hget, hv]
  exact ⟨by simp, rfl⟩

theorem npDisplayDigit_shows (leds : List npLED_t) (hlen : leds.length = 25) (digit : Int)
    (h0 : 0 ≤ digit) (h4 : digit < 4) :
    ∃ leds', npDisplayDigit leds digit = some leds' ∧ showsPattern leds' digit := by
  have hd : digit ∈ ([0, 1, 2, 3] : List Int) := by
    simp only [List.mem_cons, List.mem_singleton, List.mem_nil_iff, or_false]
    omega
  exact ⟨_, npDisplayDigit_eq_setAll leds hlen digit hd, setAll_showsPattern leds hlen digit hd⟩

theorem npClear_undefined (leds : List npLED_t) : npClear leds = none := by
  unfold npClear
  rw [npDisplayDigit_eq_foldlM]
  rfl

/-- C10: on the 5x5 grid `getIndex` stays inside 0..24, sends different cells to
different LEDs and reaches every LED; `npDisplayDigit` makes its 25 `npSetLED` calls
at the positions `getIndex linha coluna`, which name every LED 0..24 exactly once and
nothing else; and for a pattern index inside the table and a buffer of 25 LEDs it
ends with LED `getIndex x y` holding the table cell at row `y`, column `x`. -/
theorem getIndex_bijective_npDisplayDigit_fills :
    (∀ x y : Int, 0 ≤ x → x ≤ 4 → 0 ≤ y → y ≤ 4 →
      0 ≤ getIndex x y ∧ getIndex x y ≤ 24) ∧
    (∀ x y x' y' : Int, 0 ≤ x → x ≤ 4 → 0 ≤ y → y ≤ 4 → 0 ≤ x' → x' ≤ 4 → 0 ≤ y' → y' ≤ 4 →
      getIndex x y = getIndex x' y' → x = x' ∧ y = y') ∧
    (∀ i : Fin 25, ∃ x y : Fin 5, getIndex (x.val : Int) (y.val : Int) = (i.val : Int)) ∧
    (∀ (leds : List npLED_t) (digit : Int),
      npDisplayDigit leds digit
        = npDisplayDigitCells.foldlM (npDisplayDigitBody digit) leds) ∧
    npDisplayDigitPositions.length = 25 ∧
    (∀ i : Fin 25, npDisplayDigitPositions.count (i.val : Int) = 1) ∧
    (∀ p ∈ npDisplayDigitPositions, 0 ≤ p ∧ p < 25) ∧
    (∀ (leds : List npLED_t) (digit : Int), leds.length = 25 → 0 ≤ digit → digit < 4 →
      ∃ leds', npDisplayDigit leds digit = some leds' ∧ showsPattern leds' digit) := by
  refine ⟨getIndex_range, getIndex_injective, by decide, npDisplayDigit_eq_foldlM,
    by decide, by decide, by decide, fun leds digit hlen h0 h4 => ?_⟩
  exact npDisplayDigit_shows leds hlen digit h0 h4

theorem getIndex_bijective_npDisplayDigit_fills_witness :
    ∃ leds', npDisplayDigit (List.replicate 25 ⟨0, 0, 0⟩) 1 = some leds' ∧
      showsPattern leds' 1 :=
  getIndex_bijective_npDisplayDigit_fills.2.2.2.2.2.2.2
    (List.replicate 25 ⟨0, 0, 0⟩) 1 (by decide) (by decide) (by decide)

theorem vMatrizTask_alert_shows_warning (leds : List npLED_t) (hlen : leds.length = 25)
    (x y : Nat) (h : x ≥ 2866 ∨ y ≥ 3276) :
    ∃ leds', vMatrizTask leds ⟨x, y⟩ = some leds' ∧ showsPattern leds' 1 := by
  unfold vMatrizTask
  rw [if_pos h]
  exact npDisplayDigit_shows leds hlen 1 (by decide) (by decide)

theorem vMatrizTask_normal_undefined (leds : List npLED_t) (x y : Nat) (hx : x < 2866)
    (hy : y < 3276) : vMatrizTask leds ⟨x, y⟩ = none := by
  unfold vMatrizTask
  rw [if_neg (by simp only [ge_iff_le]; omega)]
  exact npClear_undefined leds

theorem showsPattern_three_isBlank (leds : List npLED_t) (h : showsPattern leds 3) :
    isBlank leds := by
  refine ⟨h.1, fun p hp => ?_⟩
  obtain ⟨i, hi⟩ := List.mem_iff_getElem?.mp hp
  have hlt : i < 25 := by
    have := (List.getElem?_eq_some_iff.mp hi).1
    rw [h.1] at this
    exact this
  have hsurj : ∀ i : Fin 25, ∃ x y : Fin 5,
      getIndex (x.val : Int) (y.val : Int) = (i.val : Int) ∧
      tableCell 3 (x.val : Int) (y.val : Int) = some ⟨0, 0, 0⟩ := by decide
  obtain ⟨x, y, hxy, hcell⟩ := hsurj ⟨i, hlt⟩
  have := (h.2 x y).2
  rw [hxy, hcell] at this
  simp only [cIndex] at this
  rw [if_pos (by omega)] at this
  simp only [Int.toNat_ofNat] at this
  rw [hi] at this
  exact Option.some.inj this

theorem npDisplayDigit_three_blank (leds : List npLED_t) (hlen : leds.length = 25) :
    ∃ leds', npDisplayDigit leds 3 = some leds' ∧ isBlank leds' := by
  obtain ⟨leds', h1, h2⟩ := npDisplayDigit_shows leds hlen 3 (by decide) (by decide)
  exact ⟨leds', h1, showsPattern_three_isBlank leds' h2⟩

/-- C4 at the readings (3000, 1000) and (500, 500): on the alert reading
`vMatrizTask` runs `npDisplayDigit(1)`; on the reading below both thresholds it runs
`npClear()`, that is `npDisplayDigit(4)`, whose first table read `digits[4][0][0][0]`
lies outside the four entries of `digits`, so the iteration has no defined buffer and
in particular does not leave the blank one. -/
theorem vMatrizTask_clear_reads_outside_table :
    (∀ leds : List npLED_t, vMatrizTask leds ⟨3000, 1000⟩ = npDisplayDigit leds 1) ∧
    (∀ leds : List npLED_t, vMatrizTask leds ⟨500, 500⟩ = npDisplayDigit leds 4) ∧
    digitsAt 4 0 0 0 = none ∧
    (∀ leds : List npLED_t, vMatrizTask leds ⟨500, 500⟩ = none) ∧
    ¬ ∃ leds leds', vMatrizTask leds ⟨500, 500⟩ = some leds' ∧ isBlank leds' := by
  refine ⟨fun _ => rfl, fun _ => rfl, by decide,
    fun leds => vMatrizTask_normal_undefined leds 500 500 (by decide) (by decide), ?_⟩
  rintro ⟨leds, leds', h, -⟩
  rw [vMatrizTask_normal_undefined leds 500 500 (by decide) (by decide)] at h
  exact Option.noConfusion h

/-- C5 at the call `npClear()`: the table `digits` has four entries, `npClear` passes
the index 4 to `npDisplayDigit`, 4 is not an index of the table, every read
`digits[4][coluna][linha][c]` is outside it, and so `npClear`, `npInit` and the
no-alert branch of `vMatrizTask` have no defined result; the index 1 of the alert
branch is inside the table. -/
theorem npClear_index_outside_digits :
    digits.length = 4 ∧
    (∀ leds : List npLED_t, npClear leds = npDisplayDigit leds 4) ∧
    ¬ ((4 : Int) < (digits.length : Int)) ∧
    cIndex digits 4 = none ∧
    (∀ coluna linha c : Int, digitsAt 4 coluna linha c = none) ∧
    (∀ leds : List npLED_t, npClear leds = none) ∧
    (∀ leds : List npLED_t, npInit leds = none) ∧
    (∀ leds : List npLED_t, vMatrizTask leds ⟨0, 0⟩ = none) ∧
    (cIndex digits 1).isSome = true := by
  refine ⟨rfl, fun _ => rfl, by decide, by decide, fun _ _ _ => rfl, npClear_undefined,
    npClear_undefined, fun leds => vMatrizTask_normal_undefined leds 0 0 (by decide) (by decide),
    by decide⟩

/-! ## Agreement of the four consumers -/

theorem fmtPercent_ne_header (v : Nat) : fmtPercent v ≠ "ATENCAO" := by
  intro h
  have h1 := congrArg (fun s : String => s.data.getLast?) h
  simp [fmtPercent, String.data_append] at h1

theorem header_drawn_iff (x y : Nat) :
    "ATENCAO" ∈ drawnTexts (vDisplayTask ⟨x, y⟩) ↔ (x ≥ 2866 ∨ y ≥ 3276) := by
  have hne := fun v => Ne.symm (fmtPercent_ne_header v)
  unfold vDisplayTask
  rcases Nat.lt_or_ge x 2866 with h1 | h1 <;> rcases Nat.lt_or_ge y 3276 with h2 | h2 <;>
    simp [h1, h2, Nat.not_le.mpr, Nat.not_lt.mpr, displayWater, displayRain, displayBoth,
      displayNormal, drawnTexts, hne]

theorem classify_ne_normal (x y : Nat) :
    classify ⟨x, y⟩ ≠ .Normal ↔ (x ≥ 2866 ∨ y ≥ 3276) := by
  rw [Ne, (classify_cases x y).2.2.2]
  omega

theorem consumers_agree (x y : Nat) (_hx : x ≤ 4095) (_hy : y ≤ 4095) :
    (classify ⟨x, y⟩ ≠ .Normal ↔ (x ≥ 2866 ∨ y ≥ 3276)) ∧
    (∀ st : GpioState,
      (vLedRGBTask st ⟨x, y⟩ LED_RED = true ∧ vLedRGBTask st ⟨x, y⟩ LED_GREEN = false)
        ↔ classify ⟨x, y⟩ ≠ .Normal) ∧
    (vBuzzerTask ⟨x, y⟩ ≠ [] ↔ classify ⟨x, y⟩ ≠ .Normal) ∧
    ("ATENCAO" ∈ drawnTexts (vDisplayTask ⟨x, y⟩) ↔ classify ⟨x, y⟩ ≠ .Normal) ∧
    (∀ leds : List npLED_t, leds.length = 25 →
      ((∃ leds', vMatrizTask leds ⟨x, y⟩ = some leds' ∧ showsPattern leds' 1)
        ↔ classify ⟨x, y⟩ ≠ .Normal)) := by
  have hz := classify_ne_normal x y
  refine ⟨hz, fun st => ?_, ?_, ?_, fun leds hlen => ?_⟩
  · rw [hz]
    unfold vLedRGBTask
    by_cases h : x ≥ 2866 ∨ y ≥ 3276 <;> simp [h, gpio_put, LED_RED, LED_GREEN]
  · rw [hz]
    unfold vBuzzerTask
    rcases Nat.lt_or_ge x 2866 with h1 | h1 <;> rcases Nat.lt_or_ge y 3276 with h2 | h2 <;>
      simp [h1, h2, Nat.not_le.mpr, Nat.not_lt.mpr]
  · rw [hz]
    exact header_drawn_iff x y
  · rw [hz]
    constructor
    · rintro ⟨leds', h, -⟩
      by_contra hn
      rw [vMatrizTask_normal_undefined leds x y (by omega) (by omega)] at h
      exact Option.noConfusion h
    · exact vMatrizTask_alert_shows_warning leds hlen x y

/-- C7 at the readings (3000, 1000) and (500, 500): on (3000, 1000) the zone is
WaterAlert, the display draws the header, the water label and 73%, the LED task sets
red on and green off, the buzzer task plays 2000 Hz for 100 ms and the matrix task
leaves the warning pattern; on (500, 500) the zone is Normal, the display draws no
header, there is no tone and green is on with red off, but the matrix task reads
`digits[4]`, outside the table, and has no defined buffer. -/
theorem consumers_on_scenarios :
    classify ⟨3000, 1000⟩ = .WaterAlert ∧
    drawnTexts (vDisplayTask ⟨3000, 1000⟩) = ["ATENCAO", "Nivel da agua", "73%"] ∧
    (∀ st : GpioState, vLedRGBTask st ⟨3000, 1000⟩ LED_RED = true ∧
      vLedRGBTask st ⟨3000, 1000⟩ LED_GREEN = false) ∧
    vBuzzerTask ⟨3000, 1000⟩ = [⟨BUZZER, 2000, 100⟩] ∧
    (∃ leds', vMatrizTask (List.replicate 25 ⟨0, 0, 0⟩) ⟨3000, 1000⟩ = some leds' ∧
      showsPattern leds' 1) ∧
    classify ⟨500, 500⟩ = .Normal ∧
    drawnTexts (vDisplayTask ⟨500, 500⟩)
      = ["Nivel da agua", "12%", "Volume de chuva", "12%"] ∧
    (∀ st : GpioState, vLedRGBTask st ⟨500, 500⟩ LED_GREEN = true ∧
      vLedRGBTask st ⟨500, 500⟩ LED_RED = false) ∧
    vBuzzerTask ⟨500, 500⟩ = [] ∧
    (∀ leds : List npLED_t, vMatrizTask leds ⟨500, 500⟩ = none) := by
  refine ⟨by decide, by decide, fun st => ?_, by decide, ?_, by decide, by decide,
    fun st => ?_, by decide,
    fun leds => vMatrizTask_normal_undefined leds 500 500 (by decide) (by decide)⟩
  · simp [vLedRGBTask, gpio_put, LED_RED, LED_GREEN]
  · exact vMatrizTask_alert_shows_warning _ (by decide) 3000 1000 (Or.inl (by decide))
  · simp [vLedRGBTask, gpio_put, LED_RED, LED_GREEN]

/-! ## Alert channel -/

theorem xQueueSend_full {α : Type} (q : Queue α) (item : α) (h : q.uxLength ≤ q.items.length) :
    xQueueSend q item = (false, q) := by
  unfold xQueueSend
  rw [if_neg (by omega)]

theorem xQueueSend_room {α : Type} (q : Queue α) (item : α) (h : q.items.length < q.uxLength) :
    xQueueSend q item = (true, { q with items := q.items ++ [item] }) := by
  unfold xQueueSend
  rw [if_pos h]

theorem chanStep_bounds (q : Queue joystick_data_t) (e : Event)
    (h : q.uxLength = 5 ∧ q.items.length ≤ 5) :
    (chanStep q e).uxLength = 5 ∧ (chanStep q e).items.length ≤ 5 := by
  obtain ⟨hcap, hlen⟩ := h
  cases e with
  | sample adc0 adc1 =>
    simp only [chanStep, vJoystickTask, xQueueSend]
    split_ifs with hroom
    · refine ⟨hcap, ?_⟩
      simp only [List.length_append, List.length_singleton]
      omega
    · exact ⟨hcap, hlen⟩
  | receive c =>
    simp only [chanStep, xQueueReceive]
    cases hq : q.items with
    | nil => simp [hcap, hq]
    | cons item rest =>
      rw [hq] at hlen
      simp only [List.length_cons] at hlen
      exact ⟨hcap, by simp only; omega⟩

theorem reachable_bounds (q : Queue joystick_data_t) (h : Reachable q) :
    q.uxLength = 5 ∧ q.items.length ≤ 5 := by
  induction h with
  | init => exact ⟨rfl, by decide⟩
  | step q e _ ih => exact chanStep_bounds q e ih

theorem chanRun_append (q : Queue joystick_data_t) (tr1 tr2 : List Event) :
    chanRun q (tr1 ++ tr2) = chanRun (chanRun q tr1) tr2 := by
  simp [chanRun, List.foldl_append]

theorem reachable_chanRun (tr : List Event) : Reachable (chanRun xQueueJoystickData tr) := by
  induction tr using List.reverseRecOn with
  | nil => exact Reachable.init
  | append_singleton tr e ih =>
    rw [chanRun_append]
    exact Reachable.step _ e ih

/-- C8: in every state of the channel reachable from the queue `main` creates, by
sampler iterations and serviced receives, at most 5 readings are held; a sampler
iteration that finds 5 readings held gets `errQUEUE_FULL` and leaves the queue, its
readings and their order as they were; and six sampler iterations in a row from the
empty queue leave exactly the first five readings. -/
theorem channel_bounded_drops_when_full (q : Queue joystick_data_t) (h : Reachable q) :
    q.items.length ≤ 5 ∧
    (∀ adc0 adc1 : Nat, q.items.length = 5 →
      xQueueSend q ⟨adc1, adc0⟩ = (false, q) ∧
      chanStep q (.sample adc0 adc1) = q ∧
      (chanStep q (.sample adc0 adc1)).items = q.items) ∧
    (∀ p1 p2 p3 p4 p5 p6 : Nat × Nat,
      (chanRun xQueueJoystickData
          [.sample p1.1 p1.2, .sample p2.1 p2.2, .sample p3.1 p3.2, .sample p4.1 p4.2,
            .sample p5.1 p5.2, .sample p6.1 p6.2]).items
        = [⟨p1.2, p1.1⟩, ⟨p2.2, p2.1⟩, ⟨p3.2, p3.1⟩, ⟨p4.2, p4.1⟩, ⟨p5.2, p5.1⟩]) := by
  obtain ⟨hcap, hlen⟩ := reachable_bounds q h
  refine ⟨hlen, fun adc0 adc1 hfull => ?_, fun _ _ _ _ _ _ => rfl⟩
  have hs : xQueueSend q ⟨adc1, adc0⟩ = (false, q) := xQueueSend_full q _ (by omega)
  have hstep : chanStep q (.sample adc0 adc1) = q := by
    simp only [chanStep, vJoystickTask, hs]
  exact ⟨hs, hstep, by rw [hstep]⟩

theorem channel_bounded_drops_when_full_witness :
    Reachable (chanRun xQueueJoystickData
      [.sample 1 1, .sample 2 2, .sample 3 3, .sample 4 4, .sample 5 5]) ∧
    chanStep (chanRun xQueueJoystickData
      [.sample 1 1, .sample 2 2, .sample 3 3, .sample 4 4, .sample 5 5]) (.sample 6 6)
      = chanRun xQueueJoystickData
          [.sample 1 1, .sample 2 2, .sample 3 3, .sample 4 4, .sample 5 5] :=
  ⟨reachable_chanRun _,
    ((channel_bounded_drops_when_full _ (reachable_chanRun _)).2.1 6 6 (by decide)).2.1⟩

theorem tracedRun_append (s : Traced) (tr1 tr2 : List Event) :
    tracedRun s (tr1 ++ tr2) = tracedRun (tracedRun s tr1) tr2 := by
  simp [tracedRun, List.foldl_append]

theorem tracedRun_cons (s : Traced) (e : Event) (tr : List Event) :
    tracedRun s (e :: tr) = tracedRun (tracedStep s e) tr := rfl

theorem tracedStep_sample_room (s : Traced) (adc0 adc1 : Nat)
    (h : s.queue.items.length < s.queue.uxLength) :
    tracedStep s (.sample adc0 adc1)
      = { queue := { s.queue with items := s.queue.items ++ [(s.samples, ⟨adc1, adc0⟩)] }
          samples := s.samples + 1
          received := s.received } := by
  simp only [tracedStep, xQueueSend_room _ _ h]

theorem tracedStep_sample_full (s : Traced) (adc0 adc1 : Nat)
    (h : s.queue.uxLength ≤ s.queue.items.length) :
    tracedStep s (.sample adc0 adc1)
      = { queue := s.queue, samples := s.samples + 1, received := s.received } := by
  simp only [tracedStep, xQueueSend_full _ _ h]

theorem tracedStep_receive_cons (s : Traced) (c : Consumer) (n : Nat) (d : joystick_data_t)
    (rest : List (Nat × joystick_data_t)) (h : s.queue.items = (n, d) :: rest) :
    tracedStep s (.receive c)
      = { queue := { s.queue with items := rest }
          samples := s.samples
          received := s.received ++ [(c, n)] } := by
  simp only [tracedStep, xQueueReceive, h]

theorem tracedStep_receive_nil (s : Traced) (c : Consumer) (h : s.queue.items = []) :
    tracedStep s (.receive c) = s := by
  simp only [tracedStep, xQueueReceive, h]

theorem tracedInv_init : TracedInv Traced.init := by
  refine ⟨?_, ?_, rfl, by decide⟩
  · simp [tagsOf, Traced.init, xQueueCreate]
  · simp [tagsOf, Traced.init, xQueueCreate]

theorem tracedInv_step (s : Traced) (e : Event) (h : TracedInv s) :
    TracedInv (tracedStep s e) := by
  obtain ⟨hpw, hlt, hcap, hlen⟩ := h
  cases e with
  | sample adc0 adc1 =>
    by_cases hroom : s.queue.items.length < s.queue.uxLength
    · rw [tracedStep_sample_room s adc0 adc1 hroom]
      have htags : tagsOf
          ({ queue := { s.queue with items := s.queue.items ++ [(s.samples, ⟨adc1, adc0⟩)] },
             samples := s.samples + 1,
             received := s.received } : Traced) = tagsOf s ++ [s.samples] := by
        simp [tagsOf]
      refine ⟨?_, ?_, hcap, ?_⟩
      · rw [htags, List.pairwise_append]
        refine ⟨hpw, by simp, fun a ha b hb => ?_⟩
        rw [List.mem_singleton] at hb
        rw [hb]
        exact hlt a ha
      · rw [htags]
        intro t ht
        rw [List.mem_append, List.mem_singleton] at ht
        rcases ht with ht | ht
        · have := hlt t ht
          simp only
          omega
        · simp only
          omega
      · simp only [List.length_append, List.length_singleton]
        omega
    · rw [tracedStep_sample_full s adc0 adc1 (by omega)]
      refine ⟨hpw, fun t ht => ?_, hcap, hlen⟩
      have := hlt t ht
      simp only
      omega
  | receive c =>
    cases hq : s.queue.items with
    | nil =>
      rw [tracedStep_receive_nil s c hq]
      exact ⟨hpw, hlt, hcap, hlen⟩
    | cons item rest =>
      obtain ⟨n, d⟩ := item
      rw [tracedStep_receive_cons s c n d rest hq]
      have htags : tagsOf
          ({ queue := { s.queue with items := rest },
             samples := s.samples,
             received := s.received ++ [(c, n)] } : Traced) = tagsOf s := by
        simp [tagsOf, hq]
      rw [hq] at hlen
      simp only [List.length_cons] at hlen
      refine ⟨by rw [htags]; exact hpw, by rw [htags]; exact hlt, hcap, ?_⟩
      simp only
      omega

theorem tracedInv_run (s : Traced) (tr : List Event) (h : TracedInv s) :
    TracedInv (tracedRun s tr) := by
  induction tr generalizing s with
  | nil => exact h
  | cons e tr ih => exact ih _ (tracedInv_step s e h)

theorem tagsOf_nodup (s : Traced) (h : TracedInv s) : (tagsOf s).Nodup :=
  h.1.imp (fun hab => Nat.ne_of_lt hab)

theorem receiversOf_length (s : Traced) (n : Nat) :
    (receiversOf s n).length = (s.received.map Prod.snd).count n := by
  unfold receiversOf
  rw [List.length_map, List.count, List.countP_map, List.countP_eq_length_filter]
  congr 1

theorem receiversOf_append (s : Traced) (c : Consumer) (m n : Nat) :
    receiversOf { s with received := s.received ++ [(c, m)] } n
      = receiversOf s n ++ (if m = n then [c] else []) := by
  unfold receiversOf
  by_cases h : m = n <;> simp [List.filter_append, List.filter_cons, h]

theorem erase_tags_step (s : Traced) (q : Queue joystick_data_t) (e : Event)
    (h1 : s.queue.uxLength = q.uxLength) (h2 : s.queue.items.map Prod.snd = q.items) :
    (tracedStep s e).queue.uxLength = (chanStep q e).uxLength ∧
    (tracedStep s e).queue.items.map Prod.snd = (chanStep q e).items := by
  have hlen : s.queue.items.length = q.items.length := by
    rw [← h2, List.length_map]
  cases e with
  | sample adc0 adc1 =>
    by_cases hroom : s.queue.items.length < s.queue.uxLength
    · rw [tracedStep_sample_room s adc0 adc1 hroom]
      simp only [chanStep, vJoystickTask, xQueueSend_room q _ (by omega)]
      exact ⟨h1, by simp [h2]⟩
    · rw [tracedStep_sample_full s adc0 adc1 (by omega)]
      simp only [chanStep, vJoystickTask, xQueueSend_full q _ (by omega)]
      exact ⟨h1, h2⟩
  | receive c =>
    cases hs : s.queue.items with
    | nil =>
      rw [tracedStep_receive_nil s c hs]
      rw [hs] at h2
      simp only [List.map_nil] at h2
      simp only [chanStep, xQueueReceive, ← h2]
      exact ⟨h1, by rw [hs]; rfl⟩
    | cons item rest =>
      obtain ⟨n, d⟩ := item
      rw [tracedStep_receive_cons s c n d rest hs]
      rw [hs] at h2
      simp only [List.map_cons] at h2
      simp only [chanStep, xQueueReceive, ← h2]
      exact ⟨h1, trivial⟩

theorem erase_tags (tr : List Event) :
    (tracedRun Traced.init tr).queue.uxLength = (chanRun xQueueJoystickData tr).uxLength ∧
    (tracedRun Traced.init tr).queue.items.map Prod.snd
      = (chanRun xQueueJoystickData tr).items := by
  induction tr using List.reverseRecOn with
  | nil => exact ⟨rfl, rfl⟩
  | append_singleton tr e ih =>
    rw [tracedRun_append, chanRun_append]
    exact erase_tags_step _ _ e ih.1 ih.2

theorem receiversOf_stable (s : Traced) (tr : List Event) (n : Nat) (hinv : TracedInv s)
    (hn : n < s.samples) (hq : n ∉ s.queue.items.map Prod.fst) :
    receiversOf (tracedRun s tr) n = receiversOf s n := by
  induction tr generalizing s with
  | nil => rfl
  | cons e tr ih =>
    rw [tracedRun_cons, ih _ (tracedInv_step s e hinv)]
    · cases e with
      | sample adc0 adc1 =>
        by_cases hroom : s.queue.items.length < s.queue.uxLength
        · rw [tracedStep_sample_room s adc0 adc1 hroom]; rfl
        · rw [tracedStep_sample_full s adc0 adc1 (by omega)]; rfl
      | receive c =>
        cases hs : s.queue.items with
        | nil => rw [tracedStep_receive_nil s c hs]
        | cons item rest =>
          obtain ⟨m, d⟩ := item
          rw [tracedStep_receive_cons s c m d rest hs]
          have hm : m ≠ n := by
            intro hmn
            apply hq
            rw [hs, hmn]
            simp
          have := receiversOf_append { s with queue := { s.queue with items := rest } } c m n
          rw [if_neg hm, List.append_nil] at this
          exact this
    · cases e with
      | sample adc0 adc1 =>
        by_cases hroom : s.queue.items.length < s.queue.uxLength
        · rw [tracedStep_sample_room s adc0 adc1 hroom]; simp only; omega
        · rw [tracedStep_sample_full s adc0 adc1 (by omega)]; simp only; omega
      | receive c =>
        cases hs : s.queue.items with
        | nil => rw [tracedStep_receive_nil s c hs]; exact hn
        | cons item rest =>
          obtain ⟨m, d⟩ := item
          rw [tracedStep_receive_cons s c m d rest hs]; exact hn
    · cases e with
      | sample adc0 adc1 =>
        by_cases hroom : s.queue.items.length < s.queue.uxLength
        · rw [tracedStep_sample_room s adc0 adc1 hroom]
          simp only [List.map_append, List.map_cons, List.map_nil, List.mem_append,
            List.mem_singleton, not_or]
          exact ⟨hq, by omega⟩
        · rw [tracedStep_sample_full s adc0 adc1 (by omega)]; exact hq
      | receive c =>
        cases hs : s.queue.items with
        | nil => rw [tracedStep_receive_nil s c hs]; exact hq
        | cons item rest =>
          obtain ⟨m, d⟩ := item
          rw [tracedStep_receive_cons s c m d rest hs]
          intro hmem
          apply hq
          rw [hs]
          exact List.mem_cons_of_mem _ hmem

theorem receivers_serviced (s : Traced) (hinv : TracedInv s) (tr : List Event) (k n : Nat)
    (d : joystick_data_t) (c : Consumer) (hk : s.queue.items[k]? = some (n, d))
    (hc : (receivers tr)[k]? = some c) :
    receiversOf (tracedRun s tr) n = receiversOf s n ++ [c] := by
  induction tr generalizing s k with
  | nil => simp [receivers] at hc
  | cons e tr ih =>
    rw [tracedRun_cons]
    have hinv' := tracedInv_step s e hinv
    cases e with
    | sample adc0 adc1 =>
      simp only [receivers] at hc
      by_cases hroom : s.queue.items.length < s.queue.uxLength
      · rw [tracedStep_sample_room s adc0 adc1 hroom] at hinv' ⊢
        have hk' : (s.queue.items ++ [(s.samples, (⟨adc1, adc0⟩ : joystick_data_t))])[k]?
            = some (n, d) := by
          rw [List.getElem?_append_left (List.getElem?_eq_some_iff.mp hk).1]
          exact hk
        exact ih _ hinv' k hk' hc
      · rw [tracedStep_sample_full s adc0 adc1 (by omega)] at hinv' ⊢
        exact ih _ hinv' k hk hc
    | receive c' =>
      simp only [receivers] at hc
      cases hs : s.queue.items with
      | nil => rw [hs] at hk; simp at hk
      | cons item rest =>
        obtain ⟨m, d'⟩ := item
        rw [hs] at hk
        rw [tracedStep_receive_cons s c' m d' rest hs] at hinv' ⊢
        have happ := receiversOf_append { s with queue := { s.queue with items := rest } } c' m n
        cases k with
        | zero =>
          simp only [List.getElem?_cons_zero, Option.some.injEq, Prod.mk.injEq] at hk hc
          obtain ⟨hmn, -⟩ := hk
          subst hmn
          subst hc
          have hnd := tagsOf_nodup s hinv
          unfold tagsOf at hnd
          rw [hs, List.map_cons, List.nodup_append] at hnd
          have hnotrest : m ∉ rest.map Prod.fst := (List.nodup_cons.mp hnd.2.1).1
          have hlt : m < s.samples := hinv.2.1 m (by
            unfold tagsOf
            rw [hs]
            simp)
          rw [receiversOf_stable _ tr m hinv' hlt hnotrest]
          rw [if_pos rfl] at happ
          exact happ
        | succ k =>
          simp only [List.getElem?_cons_succ] at hk hc
          have hmn : m ≠ n := by
            intro hmn
            have hnd := tagsOf_nodup s hinv
            unfold tagsOf at hnd
            rw [hs, List.map_cons, List.nodup_append] at hnd
            apply (List.nodup_cons.mp hnd.2.1).1
            rw [hmn]
            exact List.mem_map.mpr ⟨(n, d), List.getElem?_mem hk, rfl⟩
          rw [ih _ hinv' k hk hc]
          rw [if_neg hmn, List.append_nil] at happ
          exact congrArg (· ++ [c]) happ

theorem receiversOf_buffered_nil (s : Traced) (hinv : TracedInv s) (n : Nat)
    (hq : n ∈ s.queue.items.map Prod.fst) : receiversOf s n = [] := by
  have hnd := tagsOf_nodup s hinv
  unfold tagsOf at hnd
  rw [List.nodup_append] at hnd
  have hnot : n ∉ s.received.map Prod.snd := fun hr => hnd.2.2 hr hq
  rw [← List.length_eq_zero, receiversOf_length]
  exact List.count_eq_zero_of_not_mem hnot

/-- C9: in every state `s` the channel reaches from the start of the program by
sampler iterations and serviced receives, (1) no sample is with two holders: the
number of consumers that received it plus its copies in the channel is at most one;
(2) a sampler iteration that finds room appends its reading to the channel; (3) a
serviced receive takes the oldest reading and records it for the calling consumer
alone; (4) a reading still in the channel has been received by nobody; and (5) a
reading at position `k` of the channel is, after any further steps that contain more
than `k` receives, received by exactly one consumer, the one whose receive was the
`k+1`-th serviced from `s` on. -/
theorem snapshot_received_by_exactly_one (tr : List Event) (s : Traced)
    (hs : s = tracedRun Traced.init tr) :
    (∀ n : Nat, (receiversOf s n).length + (s.queue.items.map Prod.fst).count n ≤ 1) ∧
    (∀ adc0 adc1 : Nat, s.queue.items.length < 5 →
      (tracedStep s (.sample adc0 adc1)).queue.items
        = s.queue.items ++ [(s.samples, ⟨adc1, adc0⟩)]) ∧
    (∀ (c : Consumer) (n : Nat) (d : joystick_data_t) (rest : List (Nat × joystick_data_t)),
      s.queue.items = (n, d) :: rest →
      (tracedStep s (.receive c)).received = s.received ++ [(c, n)] ∧
      (tracedStep s (.receive c)).queue.items = rest) ∧
    (∀ (k n : Nat) (d : joystick_data_t), s.queue.items[k]? = some (n, d) →
      receiversOf s n = []) ∧
    (∀ (k n : Nat) (d : joystick_data_t) (tr2 : List Event) (c : Consumer),
      s.queue.items[k]? = some (n, d) → (receivers tr2)[k]? = some c →
      receiversOf (tracedRun s tr2) n = [c]) := by
  have hinv : TracedInv s := by
    rw [hs]
    exact tracedInv_run _ tr tracedInv_init
  have hbuf : ∀ (k n : Nat) (d : joystick_data_t), s.queue.items[k]? = some (n, d) →
      receiversOf s n = [] := fun k n d hk =>
    receiversOf_buffered_nil s hinv n (List.mem_map.mpr ⟨(n, d), List.getElem?_mem hk, rfl⟩)
  refine ⟨fun n => ?_, fun adc0 adc1 hroom => ?_, fun c n d rest hq => ?_, hbuf,
    fun k n d tr2 c hk hc => ?_⟩
  · rw [receiversOf_length, ← List.count_append]
    exact List.nodup_iff_count_le_one.mp (tagsOf_nodup s hinv) n
  · rw [tracedStep_sample_room s adc0 adc1 (by rw [hinv.2.2.1]; exact hroom)]
  · rw [tracedStep_receive_cons s c n d rest hq]
    exact ⟨rfl, rfl⟩
  · rw [receivers_serviced s hinv tr2 k n d c hk hc, hbuf k n d hk]
    rfl

theorem snapshot_received_by_exactly_one_witness :
    (tracedRun Traced.init [.sample 10 20, .sample 30 40]).queue.items[1]?
      = some (1, ⟨40, 30⟩) ∧
    (receivers [.receive .vDisplayTask, .sample 50 60, .receive .vBuzzerTask])[1]?
      = some .vBuzzerTask ∧
    receiversOf
        (tracedRun (tracedRun Traced.init [.sample 10 20, .sample 30 40])
          [.receive .vDisplayTask, .sample 50 60, .receive .vBuzzerTask]) 1
      = [.vBuzzerTask] :=
  ⟨by decide, by decide,
    (snapshot_received_by_exactly_one [.sample 10 20, .sample 30 40] _ rfl).2.2.2.2
      1 1 ⟨40, 30⟩ [.receive .vDisplayTask, .sample 50 60, .receive .vBuzzerTask]
      .vBuzzerTask (by decide) (by decide)⟩

end DispFilaTasks
